import Mathlib

/-!
Verification of the tabular data-access and aggregation layer of the
country automation-probability dashboard
(`src/country_automation_dashboard.py`).

The dashboard's data functions are shallowly embedded here:
spreadsheet cells become an explicit `Cell` type (a number, a piece of
non-numeric text, or a missing value `na` standing for NaN), dataframes
become lists of rows, pandas/NumPy primitives (`pd.to_numeric` +
`np.nan_to_num`, `Series.mean`, `Series.str.contains`, CSV write/read)
become executable Lean functions, and the Python functions under test are
translated definition by definition.
-/

namespace Dashboard

/-- A spreadsheet cell: a numeric value, non-numeric text (a string that is
not parseable as a number), or a missing value (pandas NaN). -/
inductive Cell where
  | num (q : ℚ)
  | txt (s : String)
  | na
deriving DecidableEq

/-- Models `pd.to_numeric(probs, errors='coerce')` cellwise
(line 299): numeric cells keep their value, anything else becomes NaN
(`none`).  `Cell.txt` holds text that is not parseable as a number, so it
coerces to NaN. -/
def cellToNumeric : Cell → Option ℚ
  | .num q => some q
  | .txt _ => none
  | .na => none

/-- Models `np.nan_to_num(x, nan=0)` on a scalar (line 300). -/
def nanToNum0 (x : Option ℚ) : ℚ := x.getD 0

/-- The probability-series preparation of `create_multi_occupation_plot`
(lines 297-300): `probs = occ_row.iloc[0, 2:].values;
probs = pd.to_numeric(probs, errors='coerce');
probs = np.nan_to_num(probs, nan=0)`. -/
def plotValues (probs : List Cell) : List ℚ :=
  (probs.map cellToNumeric).map nanToNum0

/-- One dataframe row: column 0 is the SOC code, column 1 the occupation
title, columns 2.. are the probability cells (`row.iloc[2:]`). -/
structure ORow where
  soc : String
  title : String
  probs : List Cell
deriving DecidableEq

/-- The statistics record built per country by
`calculate_country_occupation_stats` (lines 229-236). -/
structure OccStats where
  probabilities : List Cell
  years : List ℕ
  current_2024 : Cell
  outlook_2030 : Cell
  midterm_2050 : Cell
  final_2107 : Cell
deriving DecidableEq

/-- `years = list(range(2017, 2108))` (line 212). -/
def allYears : List ℕ := (List.range 91).map (fun i => 2017 + i)

/-- The point-statistics extraction of `calculate_country_occupation_stats`
(lines 221-236): `probs[7] if len(probs) > 7 else 0`, likewise at offsets
13 and 33, and `probs[-1] if len(probs) > 0 else 0`; the raw cells are
passed through with no numeric coercion.  The Python fallback `0` is the
number zero, `Cell.num 0`. -/
def extractPointStats (probs : List Cell) : OccStats :=
  { probabilities := probs
    years := allYears.take probs.length
    current_2024 := if 7 < probs.length then probs.getD 7 (.num 0) else .num 0
    outlook_2030 := if 13 < probs.length then probs.getD 13 (.num 0) else .num 0
    midterm_2050 := if 33 < probs.length then probs.getD 33 (.num 0) else .num 0
    final_2107 := if 0 < probs.length then probs.getD (probs.length - 1) (.num 0) else .num 0 }

/-- `calculate_country_occupation_stats` (lines 210-238): for each country
dataframe, take the first row whose title column equals the requested
occupation (`df[df.iloc[:, 1] == occupation_title]`, then `iloc[0]`); a
country without a match contributes no entry. -/
def calculate_country_occupation_stats (title : String)
    (country_data : List (String × List ORow)) : List (String × OccStats) :=
  country_data.filterMap fun cd =>
    match cd.2.find? (fun r => r.title = title) with
    | some r => some (cd.1, extractPointStats r.probs)
    | none => none

/-- The per-occupation series assembled by `create_multi_occupation_plot`
(lines 292-301): the first title-matching row's probabilities, coerced to
numbers with NaN replaced by 0, paired with years `2017 + i`. -/
def multiOccupationSeries (titles : List String) (df : List ORow) :
    List (String × List ℚ × List ℕ) :=
  titles.filterMap fun t =>
    match df.find? (fun r => r.title = t) with
    | some r =>
        let ps := plotValues r.probs
        some (t, ps, (List.range ps.length).map (fun i => 2017 + i))
    | none => none

/-- Modelled from the spec sentence "Non-numeric or missing entries in
`probs` must be coerced to `0` before use": the coercion the spec asks
for, as a pure cell function. -/
def coerceSpec : Cell → ℚ
  | .num q => q
  | .txt _ => 0
  | .na => 0

/-- A probability row whose cell at offset 7 is non-numeric text. -/
def badProbs : List Cell := List.replicate 7 (Cell.num 0) ++ [Cell.txt "N/A"]

/-- A 34-value numeric probability row used to instantiate theorems. -/
def demoProbs : List Cell := (List.range 34).map (fun i => Cell.num i)

/-- The newline character, written by its code point. -/
def nlChar : Char := Char.ofNat 10

/-- The regex metacharacter `.` (code point 46). -/
def dotChar : Char := Char.ofNat 46

/-- Single-character regex match: the metacharacter `.` matches every
character except newline, any other pattern character matches itself.
This is the per-character semantics of Python `re` on patterns built from
literal characters and `.`. -/
def tokMatch (pc c : Char) : Bool :=
  if pc = dotChar then decide (c ≠ nlChar) else decide (pc = c)

/-- Whether the pattern matches at the very start of the string
(characterwise, per `tokMatch`). -/
def matchHere : List Char → List Char → Bool
  | [], _ => true
  | _ :: _, [] => false
  | pc :: ps, c :: cs => tokMatch pc c && matchHere ps cs

/-- Whether the pattern matches somewhere in the string: Python
`re.search(p, s) is not None` for patterns in the literal-plus-dot
fragment. -/
def reSearch (p : List Char) : List Char → Bool
  | [] => matchHere p []
  | c :: cs => matchHere p (c :: cs) || reSearch p cs

/-- Models Python `str.lower()` (and `Series.str.lower()`) as the
characterwise ASCII lowercase map; agrees with Python on ASCII data such
as SOC codes and occupation titles. -/
def strLower (s : String) : String := ⟨s.data.map Char.toLower⟩

/-- Models `Series.str.contains(pat, na=False)` on one string cell
(lines 205-206): pandas interprets `pat` as a regular expression
(`regex=True` is the default) and applies `re.search`.  Faithful for
patterns built from literal characters and the metacharacter `.`; the
dashboard feeds raw user search terms in as `pat`. -/
def strContainsRe (s pat : String) : Bool := reSearch pat.toList s.toList

/-- `search_occupations` (lines 199-208): an empty term returns the data
unchanged; otherwise the term is lowercased once and a row is kept when
the lowercased SOC-code column or the lowercased title column contains a
`re.search` match of it. -/
def search_occupations (data : List ORow) (term : String) : List ORow :=
  if term = "" then data
  else
    data.filter fun r =>
      strContainsRe (strLower r.soc) (strLower term) ||
        strContainsRe (strLower r.title) (strLower term)

/-- The characters that are metacharacters of Python regular expressions,
written by code point: `. ^ $ * + ? { } [ ] \ | ( )`. -/
def regexSpecials : List Char :=
  [46, 94, 36, 42, 43, 63, 123, 125, 91, 93, 92, 124, 40, 41].map Char.ofNat

/-- A row on which a `.` search term exhibits regex (not substring)
matching: neither column contains a literal dot. -/
def dotRow : ORow := ⟨"ABC", "XYZ", []⟩

/-- Three rows used to instantiate the search theorems. -/
def searchDemoRows : List ORow :=
  [⟨"11-1011", "Chief Executives", []⟩,
   ⟨"15-1252", "Software Developers", []⟩,
   ⟨"DEV-1", "Bakers", []⟩]

/-- A dataframe view for the aggregate metrics: `ncols` is the column
count of the frame (`len(df.columns)`), each row a list of `Cell`s — the
cells of a loaded table may be numbers, NaN, or non-numeric text. -/
structure NTable where
  ncols : ℕ
  rows : List (List Cell)
deriving DecidableEq

/-- The numeric value of a cell: `none` for NaN and for text. -/
def cellVal : Cell → Option ℚ
  | .num q => some q
  | .txt _ => none
  | .na => none

/-- Whether a cell holds non-numeric text. -/
def isTxt : Cell → Bool
  | .txt _ => true
  | _ => false

/-- Models pandas `Series.mean()` on a loaded column: a non-numeric text
cell makes the underlying reduction raise `TypeError`; otherwise the
mean of the numeric entries with NaN skipped (`skipna=True` default),
itself NaN (`none`) when no numeric entry exists — in particular on an
empty column. -/
def seriesMean (xs : List Cell) : Except String (Option ℚ) :=
  if xs.any isTxt then .error "TypeError"
  else
    let vals := xs.filterMap cellVal
    if vals.length = 0 then .ok none else .ok (some (vals.sum / vals.length))

/-- Column `j` of the frame, `df.iloc[:, j]`. -/
def column (t : NTable) (j : ℕ) : List Cell :=
  t.rows.map fun r => r.getD j .na

/-- Models `(series > 0.5).sum()`: comparing a non-numeric text cell
with a float raises `TypeError`; otherwise the count of entries
exceeding 0.5, NaN entries comparing false. -/
def seriesGtHalfCount (xs : List Cell) : Except String ℕ :=
  if xs.any isTxt then .error "TypeError"
  else
    .ok (xs.countP fun c =>
      match c with
      | .num q => decide ((0.5 : ℚ) < q)
      | _ => false)

/-- The per-country record built by `create_country_overview_metrics`
(lines 365-370). -/
structure OverviewStats where
  total_occupations : ℕ
  avg_automation_2024 : Option ℚ
  high_risk_occupations_2050 : ℕ
  high_risk_percentage : ℚ
deriving DecidableEq

/-- `create_country_overview_metrics` for one country's frame
(lines 352-370): row count; `df.iloc[:, 9].mean()` when the frame has
more than 9 columns else `0`; then `(df.iloc[:, 35] > 0.5).sum()` when
more than 35 columns else `0`; and the high-risk percentage guarded by
`total_occupations > 0`.  The function has no try/except, so a
`TypeError` raised by either pandas operation propagates out
(`Except.error`), in evaluation order: the mean first, then the
comparison. -/
def create_country_overview_metrics (t : NTable) : Except String OverviewStats :=
  let total := t.rows.length
  match (if 9 < t.ncols then seriesMean (column t 9) else .ok (some 0)) with
  | .error e => .error e
  | .ok avg =>
    match (if 35 < t.ncols then seriesGtHalfCount (column t 35) else .ok 0) with
    | .error e => .error e
    | .ok hr =>
      .ok { total_occupations := total
            avg_automation_2024 := avg
            high_risk_occupations_2050 := hr
            high_risk_percentage :=
              if 0 < total then (hr : ℚ) / (total : ℚ) * 100 else 0 }

/-- The loop of `create_country_overview_metrics` over all loaded
countries (lines 348-372); an exception from any one country propagates
out of the loop. -/
def overview_all (country_data : List (String × NTable)) :
    Except String (List (String × OverviewStats)) :=
  country_data.mapM fun cd =>
    match create_country_overview_metrics cd.2 with
    | .error e => .error e
    | .ok s => .ok (cd.1, s)

/-- The pure skipna mean of a text-free column, used to state what the
overview returns when it does not raise. -/
def numericMean (xs : List Cell) : Option ℚ :=
  let vals := xs.filterMap cellVal
  if vals.length = 0 then none else some (vals.sum / vals.length)

/-- The claim-side high-risk count: rows whose value at column offset 35
exceeds 0.5, guarded by the column count. -/
def highRiskCountSpec (t : NTable) : ℕ :=
  if 35 < t.ncols then
    ((column t 35).filter (fun c =>
      match c with
      | Cell.num q => decide ((0.5 : ℚ) < q)
      | _ => false)).length
  else 0

/-- A rectangular two-row frame with the full 93 columns, used to
instantiate the aggregate theorems. -/
def overviewDemo : NTable :=
  ⟨93, [List.replicate 93 (Cell.num 0.6), List.replicate 93 (Cell.num 0.1)]⟩

/-- A one-row 93-column frame whose cell at column offset 9 is
non-numeric text. -/
def overviewTextTable9 : NTable :=
  ⟨93, [(List.replicate 93 (Cell.num 0)).set 9 (Cell.txt "n/a")]⟩

/-- A one-row 93-column frame whose cell at column offset 35 is
non-numeric text, with column 9 numeric. -/
def overviewTextTable35 : NTable :=
  ⟨93, [(List.replicate 93 (Cell.num 0)).set 35 (Cell.txt "n/a")]⟩

/-- Qualitative risk bucket. -/
inductive RiskTier where
  | high
  | medium
  | low
deriving DecidableEq

/-- Modelled from the spec's classification sentence: `v > 0.5 → High`,
`0.2 < v ≤ 0.5 → Medium`, `v ≤ 0.2 → Low`. -/
def riskTierSpec (v : ℚ) : RiskTier :=
  if 0.5 < v then .high
  else if 0.2 < v ∧ v ≤ 0.5 then .medium
  else .low

/-- The risk label of the cross-country tab (lines 557-558):
`"🔴 High" if current > 0.5 else "🟡 Medium" if current > 0.2 else
"🟢 Low"`. -/
def riskLabelCompare (v : ℚ) : String :=
  if 0.5 < v then "🔴 High" else if 0.2 < v then "🟡 Medium" else "🟢 Low"

/-- The risk label of the multi-occupation comparison table
(lines 639-640), textually the same conditional. -/
def riskLabelTable (v : ℚ) : String :=
  if 0.5 < v then "🔴 High" else if 0.2 < v then "🟡 Medium" else "🟢 Low"

/-- The risk label of the browse tab (lines 685-686): same thresholds,
labels suffixed with "Risk". -/
def riskLabelBrowse (v : ℚ) : String :=
  if 0.5 < v then "🔴 High Risk"
  else if 0.2 < v then "🟡 Medium Risk"
  else "🟢 Low Risk"

/-- Rendering of a tier as the short label of the two comparison sites. -/
def shortLabel : RiskTier → String
  | .high => "🔴 High"
  | .medium => "🟡 Medium"
  | .low => "🟢 Low"

/-- Rendering of a tier as the browse-tab label. -/
def browseLabel : RiskTier → String
  | .high => "🔴 High Risk"
  | .medium => "🟡 Medium Risk"
  | .low => "🟢 Low Risk"

/-- Outcome of attempting one country's source file: the file exists and
parses (`ok`), exists but `pd.read_excel` raises (`readError`), or is
absent (`absent`). -/
inductive ReadResult (α : Type) where
  | ok (t : α)
  | readError
  | absent
deriving DecidableEq

/-- Python dict assignment `m[k] = v` on an insertion-ordered association
list: overwrite an existing key in place, else append. -/
def dictInsert {α : Type} (m : List (String × α)) (k : String) (v : α) :
    List (String × α) :=
  if m.any (fun p => p.1 = k) then
    m.map fun p => if p.1 = k then (k, v) else p
  else m ++ [(k, v)]

/-- One iteration of the `load_country_data` loop (lines 161-171): store
the table on a successful read; on an absent file or a `read_excel`
exception, append the filename to the missing list. -/
def loadStep {α : Type} (fs : String → ReadResult α)
    (acc : List (String × α) × List String) (c : String × String) :
    List (String × α) × List String :=
  match fs c.2 with
  | .ok t => (dictInsert acc.1 c.1 t, acc.2)
  | .readError => (acc.1, acc.2 ++ [c.2])
  | .absent => (acc.1, acc.2 ++ [c.2])

/-- `load_country_data` (lines 155-173) over an abstract country
configuration and filesystem: fold the per-country step over all
configured countries, starting from empty tables and an empty missing
list. -/
def load_country_data {α : Type} (countries : List (String × String))
    (fs : String → ReadResult α) : List (String × α) × List String :=
  countries.foldl (loadStep fs) ([], [])

/-- The configured country-to-filename pairs of `COUNTRIES`
(lines 110-153), restricted to the fields the loader reads. -/
def COUNTRIES : List (String × String) :=
  [("USA", "USA_corrected.xlsx"), ("Germany", "Germany_corrected.xlsx"),
   ("China", "China_corrected.xlsx"), ("Algeria", "Algeria_corrected.xlsx"),
   ("MENA", "Mena_corrected.xlsx"), ("Mali", "Mali_corrected.xlsx")]

/-- A demonstration filesystem: the USA file reads a table, the Mali file
raises inside `read_excel`, the rest are absent. -/
def demoFS : String → ReadResult ℕ := fun f =>
  if f = "USA_corrected.xlsx" then .ok 42
  else if f = "Mali_corrected.xlsx" then .readError
  else .absent

/-- The comma character, by code point. -/
def commaChar : Char := Char.ofNat 44

/-- The double-quote character, by code point. -/
def quoteChar : Char := Char.ofNat 34

/-- The carriage-return character, by code point. -/
def crChar : Char := Char.ofNat 13

/-- Modes of the CSV tokenizer: outside quotes, inside a quoted field,
or just past a closing quote (where a second quote is an escaped quote
character). -/
inductive CsvMode where
  | plain
  | inQuotes
  | afterQuote
deriving DecidableEq

/-- State of the CSV tokenizer: the current field and the current
record's completed fields (both reversed), the completed records
(reversed), and the mode. -/
structure CsvState where
  field : List Char
  record : List (List Char)
  records : List (List (List Char))
  mode : CsvMode
deriving DecidableEq

/-- Close the current field. -/
def endField (s : CsvState) : CsvState :=
  { s with field := [], record := s.field.reverse :: s.record }

/-- Close the current field and the current record. -/
def endRecord (s : CsvState) : CsvState :=
  { s with field := [], record := [],
           records := (s.field.reverse :: s.record).reverse :: s.records }

/-- One character of CSV tokenization, with the standard dialect read by
`pd.read_csv`: comma delimiter, double-quote quoting with doubled
escapes, newline or carriage return terminating a record. -/
def csvStep (s : CsvState) (c : Char) : CsvState :=
  match s.mode with
  | .inQuotes =>
    if c = quoteChar then { s with mode := .afterQuote }
    else { s with field := c :: s.field }
  | .afterQuote =>
    if c = quoteChar then { s with field := quoteChar :: s.field, mode := .inQuotes }
    else if c = commaChar then { endField s with mode := .plain }
    else if c = nlChar ∨ c = crChar then { endRecord s with mode := .plain }
    else { s with field := c :: s.field, mode := .plain }
  | .plain =>
    if c = commaChar then endField s
    else if c = nlChar ∨ c = crChar then endRecord s
    else if c = quoteChar ∧ s.field = [] then { s with mode := .inQuotes }
    else { s with field := c :: s.field }

/-- The tokenizer's start state. -/
def initCsvState : CsvState := ⟨[], [], [], .plain⟩

/-- Emit any unterminated final record once the input ends. -/
def csvFlush (s : CsvState) : List (List (List Char)) :=
  if s.field = [] ∧ s.record = [] ∧ s.mode = CsvMode.plain then s.records.reverse
  else ((s.field.reverse :: s.record).reverse :: s.records).reverse

/-- All raw records of a CSV text, one per line, quote-aware. -/
def csvRecords (s : List Char) : List (List (List Char)) :=
  csvFlush (s.foldl csvStep initCsvState)

/-- Models `pd.read_csv` on rectangular input: tokenize records, drop
blank lines (`skip_blank_lines=True` is the default), take the first
remaining record as the header and the rest as the data rows; `none`
when no record remains ("No columns to parse from file").  A blank line
tokenizes as the one-empty-field record. -/
def read_csv (s : List Char) : Option (List (List Char) × List (List (List Char))) :=
  match (csvRecords s).filter (fun r => decide (r ≠ [[]])) with
  | [] => none
  | h :: tl => some (h, tl)

/-- Whether csv QUOTE_MINIMAL must quote the field: it contains the
delimiter, the quote character, or a line break. -/
def needsQuote (f : List Char) : Bool :=
  f.any fun c =>
    decide (c = commaChar) || decide (c = quoteChar) ||
      decide (c = nlChar) || decide (c = crChar)

/-- Double every quote character of a quoted field's body. -/
def escapeQuotes : List Char → List Char
  | [] => []
  | c :: cs =>
    if c = quoteChar then quoteChar :: quoteChar :: escapeQuotes cs
    else c :: escapeQuotes cs

/-- QUOTE_MINIMAL field rendering as written by `to_csv`: quote-wrap
with doubled inner quotes when needed, else write the field bare. -/
def renderField (f : List Char) : List Char :=
  if needsQuote f then quoteChar :: (escapeQuotes f ++ [quoteChar]) else f

/-- One CSV line: the rendered fields joined by commas. -/
def renderRecord (r : List (List Char)) : List Char :=
  List.intercalate [commaChar] (r.map renderField)

/-- The table handed to `export_data`, with every value already in its
string form; `to_csv`'s numeric formatting is outside the model (the
round-trip claim is stated modulo string formatting). -/
structure STable where
  header : List (List Char)
  rows : List (List (List Char))
deriving DecidableEq

/-- Models `DataFrame.to_csv(index=False)` (line 341): the header line
followed by one line per row, each line newline-terminated, and no index
column. -/
def to_csv (t : STable) : List Char :=
  ((t.header :: t.rows).map (fun r => renderRecord r ++ [nlChar])).flatten

/-- The exported payload: CSV text, or an xlsx workbook holding the table
in one named sheet. -/
inductive ExportContent where
  | csvText (text : List Char)
  | xlsx (sheetName : String) (t : STable)
deriving DecidableEq

/-- `export_data` (lines 336-346): dispatch on
`file_format.lower() == 'csv'`; the CSV branch returns the
`to_csv(index=False)` text with a `.csv` filename and `text/csv` MIME
type; every other format string takes the Excel branch, writing a single
sheet named "Data" with an `.xlsx` filename and the xlsx MIME type. -/
def export_data (data : STable) (filename : String) (file_format : String) :
    ExportContent × String × String :=
  if strLower file_format = "csv" then
    (.csvText (to_csv data), filename ++ ".csv", "text/csv")
  else
    (.xlsx "Data" data, filename ++ ".xlsx",
     "application/vnd.openxmlformats-officedocument.spreadsheetml.sheet")

/-- A one-column table whose single row is one empty cell. -/
def blankRowTable : STable := ⟨[['a']], [[[]]]⟩

/-- A small two-column table with a comma, a quote and a newline in its
cells, used to instantiate the round-trip theorem. -/
def csvDemoTable : STable :=
  ⟨[['s', 'o', 'c'], ['t', 'i', 't', 'l', 'e']],
   [[['1', '1'], ['a', commaChar, 'b']],
    [['2', '2'], ['x', quoteChar, 'y']],
    [['3', '3'], ['p', nlChar, 'q']]]⟩

/-- A small table used to instantiate the export-dispatch theorem. -/
def exportDemoTable : STable := ⟨[['a']], [[['1']]]⟩

end Dashboard

namespace Dashboard

/-- C1: for a row probability sequence of length `L ≤ 91`, extraction
returns `probs[7]` when `L > 7` (else 0), `probs[13]` when `L > 13`
(else 0), `probs[33]` when `L > 33` (else 0), and `probs[L-1]` when
`L > 0` (else 0). -/
theorem extractPointStats_offsets (probs : List Cell) (hL : probs.length ≤ 91) :
    (extractPointStats probs).current_2024
        = (if h : 7 < probs.length then probs.get ⟨7, h⟩ else .num 0) ∧
    (extractPointStats probs).outlook_2030
        = (if h : 13 < probs.length then probs.get ⟨13, h⟩ else .num 0) ∧
    (extractPointStats probs).midterm_2050
        = (if h : 33 < probs.length then probs.get ⟨33, h⟩ else .num 0) ∧
    (extractPointStats probs).final_2107
        = (if h : probs ≠ [] then probs.getLast h else .num 0) := by
  refine ⟨?_, ?_, ?_, ?_⟩ <;> simp only [extractPointStats]
  · by_cases h : 7 < probs.length
    · simp [h, List.getD_eq_getElem?_getD, List.getElem?_eq_getElem h]
    · simp [h]
  · by_cases h : 13 < probs.length
    · simp [h, List.getD_eq_getElem?_getD, List.getElem?_eq_getElem h]
    · simp [h]
  · by_cases h : 33 < probs.length
    · simp [h, List.getD_eq_getElem?_getD, List.getElem?_eq_getElem h]
    · simp [h]
  · by_cases h : probs = []
    · simp [h]
    · have hpos : 0 < probs.length := List.length_pos.mpr h
      have hlt : probs.length - 1 < probs.length := by omega
      rw [if_pos hpos, dif_pos (show probs ≠ [] from h), List.getLast_eq_getElem,
        List.getD_eq_getElem?_getD, List.getElem?_eq_getElem hlt]
      rfl

/-- Witness for C1: the offset equations instantiated on a concrete
34-value row. -/
theorem extractPointStats_offsets_witness :
    demoProbs.length ≤ 91 ∧
    ((extractPointStats demoProbs).current_2024
        = (if h : 7 < demoProbs.length then demoProbs.get ⟨7, h⟩ else .num 0) ∧
    (extractPointStats demoProbs).outlook_2030
        = (if h : 13 < demoProbs.length then demoProbs.get ⟨13, h⟩ else .num 0) ∧
    (extractPointStats demoProbs).midterm_2050
        = (if h : 33 < demoProbs.length then demoProbs.get ⟨33, h⟩ else .num 0) ∧
    (extractPointStats demoProbs).final_2107
        = (if h : demoProbs ≠ [] then demoProbs.getLast h else .num 0)) :=
  ⟨by decide, extractPointStats_offsets demoProbs (by decide)⟩

end Dashboard

namespace Dashboard

/-- Helper: the four extracted point statistics, written with dependent
bounds-checked indexing.  Shared by several claim theorems. -/
theorem extract_raw (probs : List Cell) :
    (extractPointStats probs).current_2024
        = (if h : 7 < probs.length then probs.get ⟨7, h⟩ else .num 0) ∧
    (extractPointStats probs).outlook_2030
        = (if h : 13 < probs.length then probs.get ⟨13, h⟩ else .num 0) ∧
    (extractPointStats probs).midterm_2050
        = (if h : 33 < probs.length then probs.get ⟨33, h⟩ else .num 0) ∧
    (extractPointStats probs).final_2107
        = (if h : probs ≠ [] then probs.getLast h else .num 0) := by
  refine ⟨?_, ?_, ?_, ?_⟩ <;> simp only [extractPointStats]
  · by_cases h : 7 < probs.length
    · simp [h, List.getD_eq_getElem?_getD, List.getElem?_eq_getElem h]
    · simp [h]
  · by_cases h : 13 < probs.length
    · simp [h, List.getD_eq_getElem?_getD, List.getElem?_eq_getElem h]
    · simp [h]
  · by_cases h : 33 < probs.length
    · simp [h, List.getD_eq_getElem?_getD, List.getElem?_eq_getElem h]
    · simp [h]
  · by_cases h : probs = []
    · simp [h]
    · have hpos : 0 < probs.length := List.length_pos.mpr h
      have hlt : probs.length - 1 < probs.length := by omega
      rw [if_pos hpos, dif_pos (show probs ≠ [] from h), List.getLast_eq_getElem,
        List.getD_eq_getElem?_getD, List.getElem?_eq_getElem hlt]
      rfl

/-- C2 counterexample: a row whose probability cell at offset 7 is the
non-numeric text "N/A".  The statistics extraction hands the text cell
through uncoerced, while the claim demands the coerced value `0`. -/
theorem stats_no_coercion_counterexample :
    (calculate_country_occupation_stats "X" [("USA", [⟨"11-1011", "X", badProbs⟩])]).map
        (fun p => (p.1, p.2.current_2024)) = [("USA", Cell.txt "N/A")] ∧
    Cell.txt "N/A" ≠ Cell.num (coerceSpec (Cell.txt "N/A")) := by
  constructor
  · decide
  · decide

/-- C2 amended: the coercion of non-numeric and missing cells to 0 is
applied only in the multi-occupation plot series (`pd.to_numeric` +
`np.nan_to_num`); the statistics extraction passes the raw cells through,
with `Cell.num 0` arising only as the out-of-bounds fallback.  (Neither
operation can fail: indexing is bounds-checked and the functions are
total.) -/
theorem coercion_only_in_plot_path (probs : List Cell) :
    plotValues probs = probs.map coerceSpec ∧
    ((extractPointStats probs).current_2024
        = (if h : 7 < probs.length then probs.get ⟨7, h⟩ else .num 0) ∧
    (extractPointStats probs).outlook_2030
        = (if h : 13 < probs.length then probs.get ⟨13, h⟩ else .num 0) ∧
    (extractPointStats probs).midterm_2050
        = (if h : 33 < probs.length then probs.get ⟨33, h⟩ else .num 0) ∧
    (extractPointStats probs).final_2107
        = (if h : probs ≠ [] then probs.getLast h else .num 0)) := by
  refine ⟨?_, extract_raw probs⟩
  simp only [plotValues, List.map_map]
  apply List.map_congr_left
  intro c _
  cases c <;> rfl

/-- C6: searching with the empty term returns the table unchanged. -/
theorem search_empty_term_identity (data : List ORow) :
    search_occupations data "" = data := by
  simp [search_occupations]

/-- Helper: on a pattern free of regex metacharacters, an anchored match
is exactly list-prefix. -/
theorem matchHere_literal (p : List Char) (hp : ∀ c ∈ p, c ∉ regexSpecials) :
    ∀ s : List Char, (matchHere p s = true ↔ p <+: s) := by
  induction p with
  | nil => intro s; simp [matchHere]
  | cons pc ps ih =>
    intro s
    have hpc : pc ∉ regexSpecials := hp pc (by simp)
    have hdot : pc ≠ dotChar := by
      intro h
      exact hpc (by rw [h]; decide)
    cases s with
    | nil => simp [matchHere]
    | cons c cs =>
      have ihcs := ih (fun c hc => hp c (List.mem_cons_of_mem _ hc)) cs
      simp [matchHere, tokMatch, hdot, List.cons_prefix_cons, ihcs, and_comm]

/-- Helper: on a pattern free of regex metacharacters, `re.search`
succeeds exactly when the pattern is an infix of the string. -/
theorem reSearch_literal (p : List Char) (hp : ∀ c ∈ p, c ∉ regexSpecials) :
    ∀ s : List Char, (reSearch p s = true ↔ p <:+: s) := by
  intro s
  induction s with
  | nil =>
    simp [reSearch, matchHere_literal p hp []]
  | cons c cs ih =>
    simp [reSearch, matchHere_literal p hp (c :: cs), ih, List.infix_cons_iff]

/-- Helper: Boolean form of `reSearch_literal`. -/
theorem reSearch_eq_decide_infix (p s : List Char) (hp : ∀ c ∈ p, c ∉ regexSpecials) :
    reSearch p s = decide (p <:+: s) := by
  by_cases h : p <:+: s
  · rw [(reSearch_literal p hp s).mpr h, decide_eq_true h]
  · have hb : reSearch p s = false :=
      Bool.eq_false_iff.mpr (fun hc => h ((reSearch_literal p hp s).mp hc))
    rw [hb, decide_eq_false h]

/-- C5 counterexample: the search term is interpreted as a regular
expression (`Series.str.contains` defaults to `regex=True`), not as a
literal substring.  With term "." the row ("ABC", "XYZ") is returned even
though neither column contains a dot, so the substring characterization
fails. -/
theorem search_regex_counterexample :
    search_occupations [dotRow] "." = [dotRow] ∧
    [dotRow].filter (fun r =>
        decide ((strLower ".").toList <:+: (strLower r.soc).toList) ||
        decide ((strLower ".").toList <:+: (strLower r.title).toList)) = [] := by
  constructor
  · decide
  · decide

/-- C5 amended: for every non-empty search term whose lowercase form
contains no regex metacharacter, the search returns exactly the rows in
which the term appears case-insensitively as a substring of the SOC-code
column or of the title column (logical OR), in input order.  (For terms
with metacharacters the term acts as a regular expression instead.) -/
theorem search_substring_semantics (data : List ORow) (term : String)
    (hne : term ≠ "") (hlit : ∀ c ∈ (strLower term).toList, c ∉ regexSpecials) :
    search_occupations data term =
      data.filter (fun r =>
        decide ((strLower term).toList <:+: (strLower r.soc).toList) ||
        decide ((strLower term).toList <:+: (strLower r.title).toList)) ∧
    (search_occupations data term).Sublist data := by
  have hfilter : search_occupations data term =
      data.filter (fun r =>
        strContainsRe (strLower r.soc) (strLower term) ||
          strContainsRe (strLower r.title) (strLower term)) := by
    simp [search_occupations, hne]
  constructor
  · rw [hfilter]
    apply List.filter_congr
    intro r _
    rw [strContainsRe, strContainsRe,
      reSearch_eq_decide_infix _ _ hlit, reSearch_eq_decide_infix _ _ hlit]
  · rw [hfilter]
    exact List.filter_sublist data

/-- Witness for C5's amended theorem: the term "dev" on three concrete
rows selects exactly the two rows matching in code or title. -/
theorem search_substring_semantics_witness :
    ("dev" : String) ≠ "" ∧ (∀ c ∈ (strLower "dev").toList, c ∉ regexSpecials) ∧
    (search_occupations searchDemoRows "dev" =
      searchDemoRows.filter (fun r =>
        decide ((strLower "dev").toList <:+: (strLower r.soc).toList) ||
        decide ((strLower "dev").toList <:+: (strLower r.title).toList)) ∧
    (search_occupations searchDemoRows "dev").Sublist searchDemoRows) :=
  ⟨by decide, by decide,
    search_substring_semantics searchDemoRows "dev" (by decide) (by decide)⟩

end Dashboard

namespace Dashboard

/-- C3 counterexample: the claim fails on both of its conjuncts.  A
malformed table — non-numeric text in the consulted column 9 — makes the
overview raise `TypeError` rather than return; and on a zero-row frame
that keeps the usual column count, `avg2024` is the mean of an empty
column, NaN rather than the claimed `0` (the other three fields are as
claimed). -/
theorem overview_empty_counterexample :
    create_country_overview_metrics overviewTextTable9 =
      Except.error "TypeError" ∧
    (create_country_overview_metrics overviewTextTable9).isOk = false ∧
    create_country_overview_metrics ⟨93, []⟩ =
      Except.ok { total_occupations := 0
                  avg_automation_2024 := none
                  high_risk_occupations_2050 := 0
                  high_risk_percentage := 0 } ∧
    (none : Option ℚ) ≠ some 0 :=
  ⟨rfl, rfl, rfl, by decide⟩

/-- C3 amended: on an empty (zero-row) table the overview never raises
and returns `totalOccupations = 0`, `highRisk2050 = 0` and
`highRiskPct = 0` with no division-by-zero fault; `avg2024` is `0` when
the table has at most 9 columns and NaN (the pandas mean of an empty
column) when it has more.  On malformed tables the overview is not
raise-free: non-numeric text in consulted column 9 or 35 raises
`TypeError` (exhibited by the counterexample); shape defects alone do
not raise. -/
theorem overview_empty_table (c : ℕ) :
    create_country_overview_metrics ⟨c, []⟩ =
      Except.ok { total_occupations := 0
                  avg_automation_2024 := if 9 < c then none else some 0
                  high_risk_occupations_2050 := 0
                  high_risk_percentage := 0 } := by
  by_cases h9 : 9 < c <;> by_cases h35 : 35 < c <;>
    simp [create_country_overview_metrics, column, seriesMean,
      seriesGtHalfCount, h9, h35]

/-- C4 counterexample: a loaded table may carry non-numeric text (spec
data model §3).  With text at column offset 35 (column 9 numeric), the
mean succeeds but `df.iloc[:, 35] > 0.5` raises `TypeError`, so the
overview returns no statistics at all instead of computing the claimed
formula values. -/
theorem overview_typeerror_counterexample :
    create_country_overview_metrics overviewTextTable35 =
      Except.error "TypeError" ∧
    (create_country_overview_metrics overviewTextTable35).isOk = false :=
  ⟨rfl, rfl⟩

/-- C4 amended: for every loaded rectangular table whose consulted
columns (offsets 9 and 35) are free of non-numeric text, the overview
raises nothing and computes the row count, the guarded skipna mean of
the column at offset 9, the guarded count of rows exceeding 0.5 at
column offset 35, and the percentage guarded by a positive row count;
with text in a consulted column it raises `TypeError` instead (see the
counterexample). -/
theorem overview_formulas (t : NTable)
    (_hrect : ∀ r ∈ t.rows, r.length = t.ncols)
    (h9 : ∀ c ∈ column t 9, isTxt c = false)
    (h35 : ∀ c ∈ column t 35, isTxt c = false) :
    create_country_overview_metrics t =
      Except.ok
        { total_occupations := t.rows.length
          avg_automation_2024 :=
            if 9 < t.ncols then numericMean (column t 9) else some 0
          high_risk_occupations_2050 := highRiskCountSpec t
          high_risk_percentage :=
            if 0 < t.rows.length then
              (highRiskCountSpec t : ℚ) / (t.rows.length : ℚ) * 100
            else 0 } := by
  have hany9 : (column t 9).any isTxt = false := by
    rw [List.any_eq_false]
    intro c hc
    simp [h9 c hc]
  have hany35 : (column t 35).any isTxt = false := by
    rw [List.any_eq_false]
    intro c hc
    simp [h35 c hc]
  have hmean : seriesMean (column t 9) = Except.ok (numericMean (column t 9)) := by
    by_cases hv : ((column t 9).filterMap cellVal).length = 0 <;>
      simp [seriesMean, numericMean, hany9, hv]
  have hcnt : seriesGtHalfCount (column t 35) =
      Except.ok (((column t 35).filter (fun c =>
        match c with
        | Cell.num q => decide ((0.5 : ℚ) < q)
        | _ => false)).length) := by
    simp [seriesGtHalfCount, hany35, List.countP_eq_length_filter]
  by_cases h9c : 9 < t.ncols <;> by_cases h35c : 35 < t.ncols <;>
    simp [create_country_overview_metrics, highRiskCountSpec, h9c, h35c,
      hmean, hcnt]

/-- Witness for C4's amended theorem: the overview formulas on a
concrete rectangular text-free 93-column two-row frame. -/
theorem overview_formulas_witness :
    (∀ r ∈ overviewDemo.rows, r.length = overviewDemo.ncols) ∧
    (∀ c ∈ column overviewDemo 9, isTxt c = false) ∧
    (∀ c ∈ column overviewDemo 35, isTxt c = false) ∧
    create_country_overview_metrics overviewDemo =
      Except.ok
        { total_occupations := overviewDemo.rows.length
          avg_automation_2024 :=
            if 9 < overviewDemo.ncols then numericMean (column overviewDemo 9)
            else some 0
          high_risk_occupations_2050 := highRiskCountSpec overviewDemo
          high_risk_percentage :=
            if 0 < overviewDemo.rows.length then
              (highRiskCountSpec overviewDemo : ℚ)
                / (overviewDemo.rows.length : ℚ) * 100
            else 0 } :=
  ⟨by decide, by decide, by decide,
    overview_formulas overviewDemo (by decide) (by decide) (by decide)⟩

/-- C7: all three label sites classify by the same pure thresholds —
each site's label is the rendering of the spec's tier function
(`> 0.5` High, in `(0.2, 0.5]` Medium, `≤ 0.2` Low). -/
theorem risk_tier_uniform (v : ℚ) :
    riskLabelCompare v = shortLabel (riskTierSpec v) ∧
    riskLabelTable v = shortLabel (riskTierSpec v) ∧
    riskLabelBrowse v = browseLabel (riskTierSpec v) := by
  unfold riskLabelCompare riskLabelTable riskLabelBrowse riskTierSpec
  by_cases h1 : (0.5 : ℚ) < v
  · simp [h1, shortLabel, browseLabel]
  · by_cases h2 : (0.2 : ℚ) < v
    · have hand : (0.2 : ℚ) < v ∧ v ≤ 0.5 := ⟨h2, le_of_not_lt h1⟩
      simp [h1, h2, hand, shortLabel, browseLabel]
    · have hand : ¬ ((0.2 : ℚ) < v ∧ v ≤ 0.5) := fun hc => h2 hc.1
      simp [h1, h2, hand, shortLabel, browseLabel]

/-- Helper: the load fold over a general accumulator, for countries whose
codes are fresh for the accumulated tables and mutually distinct. -/
theorem load_fold_general {α : Type} (fs : String → ReadResult α) :
    ∀ (countries : List (String × String)) (acc1 : List (String × α))
      (acc2 : List String),
      (∀ c ∈ countries, ∀ p ∈ acc1, p.1 ≠ c.1) →
      (countries.map Prod.fst).Nodup →
      countries.foldl (loadStep fs) (acc1, acc2) =
        (acc1 ++ countries.filterMap (fun c =>
            match fs c.2 with
            | .ok t => some (c.1, t)
            | _ => none),
         acc2 ++ countries.filterMap (fun c =>
            match fs c.2 with
            | .ok _ => none
            | _ => some c.2)) := by
  intro countries
  induction countries with
  | nil => intro acc1 acc2 _ _; simp
  | cons c cs ih =>
    intro acc1 acc2 hfresh hnodup
    have hfresh_c : ∀ p ∈ acc1, p.1 ≠ c.1 := hfresh c (by simp)
    have hcons : (c.1 :: cs.map Prod.fst).Nodup := hnodup
    have hnodup_tail : (cs.map Prod.fst).Nodup := (List.nodup_cons.mp hcons).2
    have hc_not_tail : ∀ c' ∈ cs, c.1 ≠ c'.1 := by
      intro c' hc' he
      exact (List.nodup_cons.mp hcons).1 (he ▸ List.mem_map_of_mem Prod.fst hc')
    simp only [List.foldl_cons, List.filterMap_cons]
    cases hfs : fs c.2 with
    | ok t =>
      have hins : dictInsert acc1 c.1 t = acc1 ++ [(c.1, t)] := by
        have hany : acc1.any (fun p => decide (p.1 = c.1)) = false := by
          rw [List.any_eq_false]
          intro p hp
          simpa using hfresh_c p hp
        simp [dictInsert, hany]
      have hfresh' : ∀ c' ∈ cs, ∀ p ∈ acc1 ++ [(c.1, t)], p.1 ≠ c'.1 := by
        intro c' hc' p hp
        rcases List.mem_append.mp hp with hpl | hpr
        · exact hfresh c' (List.mem_cons_of_mem _ hc') p hpl
        · have : p = (c.1, t) := by simpa using hpr
          rw [this]
          exact hc_not_tail c' hc'
      rw [show loadStep fs (acc1, acc2) c = (dictInsert acc1 c.1 t, acc2) by
            simp [loadStep, hfs],
          hins, ih (acc1 ++ [(c.1, t)]) acc2 hfresh' hnodup_tail]
      simp
    | readError =>
      have hfresh' : ∀ c' ∈ cs, ∀ p ∈ acc1, p.1 ≠ c'.1 :=
        fun c' hc' => hfresh c' (List.mem_cons_of_mem _ hc')
      rw [show loadStep fs (acc1, acc2) c = (acc1, acc2 ++ [c.2]) by
            simp [loadStep, hfs],
          ih acc1 (acc2 ++ [c.2]) hfresh' hnodup_tail]
      simp
    | absent =>
      have hfresh' : ∀ c' ∈ cs, ∀ p ∈ acc1, p.1 ≠ c'.1 :=
        fun c' hc' => hfresh c' (List.mem_cons_of_mem _ hc')
      rw [show loadStep fs (acc1, acc2) c = (acc1, acc2 ++ [c.2]) by
            simp [loadStep, hfs],
          ih acc1 (acc2 ++ [c.2]) hfresh' hnodup_tail]
      simp

/-- C8: the loader attempts every configured country; a successful read
is stored under the country code, an absent file or a read failure puts
the filename on the missing list and the loop continues, and a failed
country is absent from the returned tables. -/
theorem load_attempts_all {α : Type} (countries : List (String × String))
    (fs : String → ReadResult α)
    (hnodup : (countries.map Prod.fst).Nodup) :
    load_country_data countries fs =
      (countries.filterMap (fun c =>
          match fs c.2 with
          | .ok t => some (c.1, t)
          | _ => none),
       countries.filterMap (fun c =>
          match fs c.2 with
          | .ok _ => none
          | _ => some c.2)) := by
  have h := load_fold_general fs countries [] [] (by intro c _ p hp; cases hp) hnodup
  simpa [load_country_data] using h

/-- Witness for C8: the real country configuration against a filesystem
where the USA file loads, the Mali file is corrupt, and the rest are
absent. -/
theorem load_attempts_all_witness :
    (COUNTRIES.map Prod.fst).Nodup ∧
    load_country_data COUNTRIES demoFS =
      (COUNTRIES.filterMap (fun c =>
          match demoFS c.2 with
          | .ok t => some (c.1, t)
          | _ => none),
       COUNTRIES.filterMap (fun c =>
          match demoFS c.2 with
          | .ok _ => none
          | _ => some c.2)) :=
  ⟨by decide, load_attempts_all COUNTRIES demoFS (by decide)⟩

/-- C10: every format string whose lowercase form is not "csv" — "excel"
and unrecognized strings alike — takes the Excel branch: a single sheet
named "Data", an `.xlsx` filename and the xlsx MIME type, never an
error. -/
theorem export_non_csv_dispatch (data : STable) (filename file_format : String)
    (h : strLower file_format ≠ "csv") :
    export_data data filename file_format =
      (.xlsx "Data" data, filename ++ ".xlsx",
       "application/vnd.openxmlformats-officedocument.spreadsheetml.sheet") := by
  simp [export_data, h]

/-- Witness for C10: the unrecognized format string "json" produces the
Excel result. -/
theorem export_non_csv_dispatch_witness :
    strLower "json" ≠ "csv" ∧
    export_data exportDemoTable "t" "json" =
      (.xlsx "Data" exportDemoTable, "t" ++ ".xlsx",
       "application/vnd.openxmlformats-officedocument.spreadsheetml.sheet") :=
  ⟨by decide, export_non_csv_dispatch exportDemoTable "t" "json" (by decide)⟩

end Dashboard

namespace Dashboard

/-- Helper: a field that QUOTE_MINIMAL leaves bare contains no special
character. -/
theorem safe_of_not_needsQuote (f : List Char) (h : needsQuote f = false) :
    ∀ c ∈ f, c ≠ commaChar ∧ c ≠ quoteChar ∧ c ≠ nlChar ∧ c ≠ crChar := by
  intro c hc
  have h1 : (f.any fun c =>
      decide (c = commaChar) || decide (c = quoteChar) ||
        decide (c = nlChar) || decide (c = crChar)) = false := h
  have h2 := List.any_eq_false.mp h1 c hc
  simp only [Bool.or_eq_true, decide_eq_true_eq, not_or] at h2
  exact ⟨h2.1.1.1, h2.1.1.2, h2.1.2, h2.2⟩

/-- Helper: in plain mode the tokenizer appends special-free characters
to the current field. -/
theorem foldl_plain_safe :
    ∀ (f : List Char),
      (∀ c ∈ f, c ≠ commaChar ∧ c ≠ quoteChar ∧ c ≠ nlChar ∧ c ≠ crChar) →
      ∀ (fld : List Char) (racc : List (List Char))
        (recs : List (List (List Char))),
        f.foldl csvStep ⟨fld, racc, recs, .plain⟩ =
          ⟨f.reverse ++ fld, racc, recs, .plain⟩ := by
  intro f
  induction f with
  | nil => intro _ fld racc recs; simp
  | cons c cs ih =>
    intro hsafe fld racc recs
    obtain ⟨h1, h2, h3, h4⟩ := hsafe c (by simp)
    have hstep : csvStep ⟨fld, racc, recs, .plain⟩ c =
        ⟨c :: fld, racc, recs, .plain⟩ := by
      simp [csvStep, h1, h2, h3, h4]
    rw [List.foldl_cons, hstep,
      ih (fun c' hc' => hsafe c' (List.mem_cons_of_mem _ hc')) (c :: fld) racc recs]
    simp

/-- Helper: inside quotes the tokenizer consumes an escaped body and
reconstructs the original field characters. -/
theorem foldl_quoted_body :
    ∀ (f : List Char) (fld : List Char) (racc : List (List Char))
      (recs : List (List (List Char))),
      (escapeQuotes f).foldl csvStep ⟨fld, racc, recs, .inQuotes⟩ =
        ⟨f.reverse ++ fld, racc, recs, .inQuotes⟩ := by
  intro f
  induction f with
  | nil => intro fld racc recs; simp [escapeQuotes]
  | cons c cs ih =>
    intro fld racc recs
    by_cases hq : c = quoteChar
    · have hstep1 : csvStep ⟨fld, racc, recs, .inQuotes⟩ quoteChar =
          ⟨fld, racc, recs, .afterQuote⟩ := by
        simp [csvStep]
      have hstep2 : csvStep ⟨fld, racc, recs, .afterQuote⟩ quoteChar =
          ⟨quoteChar :: fld, racc, recs, .inQuotes⟩ := by
        simp [csvStep]
      rw [show escapeQuotes (c :: cs) =
            quoteChar :: quoteChar :: escapeQuotes cs by simp [escapeQuotes, hq],
        List.foldl_cons, List.foldl_cons, hstep1, hstep2, ih]
      simp [hq]
    · have hstep : csvStep ⟨fld, racc, recs, .inQuotes⟩ c =
          ⟨c :: fld, racc, recs, .inQuotes⟩ := by
        simp [csvStep, hq]
      rw [show escapeQuotes (c :: cs) = c :: escapeQuotes cs by
            simp [escapeQuotes, hq],
        List.foldl_cons, hstep, ih]
      simp

/-- Helper: consuming one rendered field from the start of a field leaves
the field's characters accumulated, in plain or just-after-quote mode. -/
theorem foldl_renderField (f : List Char) (racc : List (List Char))
    (recs : List (List (List Char))) (rest : List Char) :
    ∃ m, (m = CsvMode.plain ∨ m = CsvMode.afterQuote) ∧
      (renderField f ++ rest).foldl csvStep ⟨[], racc, recs, .plain⟩ =
        rest.foldl csvStep ⟨f.reverse, racc, recs, m⟩ := by
  by_cases hq : needsQuote f = true
  · refine ⟨.afterQuote, Or.inr rfl, ?_⟩
    have h1 : quoteChar ≠ commaChar := by decide
    have h2 : quoteChar ≠ nlChar := by decide
    have h3 : quoteChar ≠ crChar := by decide
    have hopen : csvStep ⟨[], racc, recs, .plain⟩ quoteChar =
        ⟨[], racc, recs, .inQuotes⟩ := by
      simp [csvStep, h1, h2, h3]
    have hclose : csvStep ⟨f.reverse ++ [], racc, recs, .inQuotes⟩ quoteChar =
        ⟨f.reverse ++ [], racc, recs, .afterQuote⟩ := by
      simp [csvStep]
    rw [show renderField f ++ rest =
          quoteChar :: (escapeQuotes f ++ (quoteChar :: rest)) by
        simp [renderField, hq],
      List.foldl_cons, hopen, List.foldl_append, foldl_quoted_body,
      List.foldl_cons, hclose]
    simp
  · refine ⟨.plain, Or.inl rfl, ?_⟩
    have hf : renderField f = f := by
      simp [renderField, hq]
    rw [hf, List.foldl_append,
      foldl_plain_safe f (safe_of_not_needsQuote f (by simpa using hq)) [] racc recs]
    simp

/-- Helper: after a completed field, a comma closes the field. -/
theorem csvStep_comma (fld : List Char) (racc : List (List Char))
    (recs : List (List (List Char))) (m : CsvMode)
    (hm : m = CsvMode.plain ∨ m = CsvMode.afterQuote) :
    csvStep ⟨fld, racc, recs, m⟩ commaChar =
      ⟨[], fld.reverse :: racc, recs, .plain⟩ := by
  have h1 : commaChar ≠ quoteChar := by decide
  rcases hm with hm | hm <;> subst hm <;> simp [csvStep, endField, h1]

/-- Helper: after a completed field, a newline closes the field and the
record. -/
theorem csvStep_newline (fld : List Char) (racc : List (List Char))
    (recs : List (List (List Char))) (m : CsvMode)
    (hm : m = CsvMode.plain ∨ m = CsvMode.afterQuote) :
    csvStep ⟨fld, racc, recs, m⟩ nlChar =
      ⟨[], [], (fld.reverse :: racc).reverse :: recs, .plain⟩ := by
  have h1 : nlChar ≠ quoteChar := by decide
  have h2 : nlChar ≠ commaChar := by decide
  rcases hm with hm | hm <;> subst hm <;> simp [csvStep, endRecord, h1, h2]

/-- Helper: a rendered record followed by a newline is tokenized back to
exactly its fields (appended after any previously accumulated fields). -/
theorem foldl_renderRecord :
    ∀ (fields : List (List Char)), fields ≠ [] →
    ∀ (racc : List (List Char)) (recs : List (List (List Char)))
      (rest : List Char),
      (renderRecord fields ++ nlChar :: rest).foldl csvStep
          ⟨[], racc, recs, .plain⟩ =
        rest.foldl csvStep ⟨[], [], (racc.reverse ++ fields) :: recs, .plain⟩ := by
  intro fields
  induction fields with
  | nil => intro hne; exact absurd rfl hne
  | cons f fs ih =>
    intro _ racc recs rest
    cases fs with
    | nil =>
      have hrr : renderRecord [f] = renderField f := by
        simp [renderRecord, List.intercalate]
      obtain ⟨m, hm, hfold⟩ := foldl_renderField f racc recs (nlChar :: rest)
      rw [hrr, hfold, List.foldl_cons, csvStep_newline _ _ _ _ hm]
      simp
    | cons g gs =>
      have hrr : renderRecord (f :: g :: gs) =
          renderField f ++ (commaChar :: renderRecord (g :: gs)) := by
        simp [renderRecord, List.intercalate]
      obtain ⟨m, hm, hfold⟩ :=
        foldl_renderField f racc recs
          (commaChar :: (renderRecord (g :: gs) ++ nlChar :: rest))
      rw [show renderRecord (f :: g :: gs) ++ nlChar :: rest =
            renderField f ++
              (commaChar :: (renderRecord (g :: gs) ++ nlChar :: rest)) by
          simp [hrr],
        hfold, List.foldl_cons, csvStep_comma _ _ _ _ hm]
      simp only [List.reverse_reverse]
      rw [ih (by simp) (f :: racc) recs rest]
      simp

/-- Helper: the whole rendered text is tokenized back to the original
records, provided every record has at least one field. -/
theorem foldl_allRecords :
    ∀ (rs : List (List (List Char))), (∀ r ∈ rs, r ≠ []) →
    ∀ (recs : List (List (List Char))),
      ((rs.map (fun r => renderRecord r ++ [nlChar])).flatten).foldl csvStep
          ⟨[], [], recs, .plain⟩ =
        ⟨[], [], rs.reverse ++ recs, .plain⟩ := by
  intro rs
  induction rs with
  | nil => intro _ recs; simp
  | cons r rest ih =>
    intro hne recs
    have hdecomp :
        ((r :: rest).map (fun r => renderRecord r ++ [nlChar])).flatten =
          renderRecord r ++
            (nlChar :: (rest.map (fun r => renderRecord r ++ [nlChar])).flatten) := by
      simp
    rw [hdecomp, foldl_renderRecord r (hne r (by simp)) [] recs _]
    simp only [List.reverse_nil, List.nil_append]
    rw [ih (fun r' hr' => hne r' (List.mem_cons_of_mem _ hr')) (r :: recs)]
    simp

/-- Helper: tokenizing the rendered CSV text of a table recovers the
header and all rows. -/
theorem csvRecords_to_csv (t : STable)
    (hne : ∀ r ∈ t.header :: t.rows, r ≠ []) :
    csvRecords (to_csv t) = t.header :: t.rows := by
  rw [csvRecords, to_csv, initCsvState,
    foldl_allRecords (t.header :: t.rows) hne []]
  simp [csvFlush]

/-- C9 counterexample: a one-column table whose single row is one empty
cell renders that row as a blank line; `read_csv` skips blank lines, so
the re-parsed table has 0 rows while the input had 1. -/
theorem csv_roundtrip_counterexample :
    blankRowTable.rows.length = 1 ∧
    read_csv (to_csv blankRowTable) = some ([['a']], []) ∧
    (read_csv (to_csv blankRowTable)).map (fun p => p.2.length) = some 0 := by
  refine ⟨?_, ?_, ?_⟩ <;> decide

/-- C9 amended: exporting as CSV and re-parsing yields a table with the
same row count and the same cell values, for every rectangular table in
which no line renders blank — in particular every table with at least
two columns, and any table whose single column has no empty cell.  (A
row rendering to a blank line is dropped by `read_csv`'s blank-line
skipping, see the counterexample.) -/
theorem csv_roundtrip (t : STable) (name : String)
    (hrect : ∀ r ∈ t.rows, r.length = t.header.length)
    (hnb : ∀ r ∈ t.header :: t.rows, renderRecord r ≠ []) :
    (export_data t name "csv").1 = ExportContent.csvText (to_csv t) ∧
    read_csv (to_csv t) = some (t.header, t.rows) := by
  have _hr := hrect
  constructor
  · have hcsv : strLower "csv" = "csv" := by decide
    simp [export_data, hcsv]
  · have hne : ∀ r ∈ t.header :: t.rows, r ≠ [] := by
      intro r hr hcon
      exact hnb r hr (by rw [hcon]; decide)
    have hfilter : (t.header :: t.rows).filter (fun r => decide (r ≠ [[]])) =
        t.header :: t.rows := by
      rw [List.filter_eq_self]
      intro r hr
      have hrr : r ≠ [[]] := by
        intro hcon
        exact hnb r hr (by rw [hcon]; decide)
      simpa using hrr
    unfold read_csv
    rw [csvRecords_to_csv t hne, hfilter]

/-- Witness for C9's amended theorem: a concrete two-column table whose
cells exercise comma, quote and newline quoting round-trips exactly. -/
theorem csv_roundtrip_witness :
    (∀ r ∈ csvDemoTable.rows, r.length = csvDemoTable.header.length) ∧
    (∀ r ∈ csvDemoTable.header :: csvDemoTable.rows, renderRecord r ≠ []) ∧
    ((export_data csvDemoTable "t" "csv").1 =
        ExportContent.csvText (to_csv csvDemoTable) ∧
      read_csv (to_csv csvDemoTable) =
        some (csvDemoTable.header, csvDemoTable.rows)) :=
  ⟨by decide, by decide, csv_roundtrip csvDemoTable "t" (by decide) (by decide)⟩

end Dashboard
